import Mathlib

/-!
# Verification of the substack_downloader incremental sync pipeline

This file gives a shallow embedding, in Lean 4, of the core of the
`substack_downloader` repository: the tracker ledger (`epub_tracker.py`),
the archive metadata fetcher (`fetcher.py`, `models.py`), the sync
orchestrator (`orchestrator.py`), the image downloader
(`compiler/media.py`) and the content sanitizer (`parser.py`),
together with theorems settling the specification claims about them.

Machine-level conventions of the embedding:
* Python `datetime` values are modelled as integers (timestamps); the
  only operations the code performs on them are comparisons, so any
  linearly ordered type is faithful.
* File-system effects are modelled by explicit state values passed in
  and out of the embedded functions.
* Network responses are inputs of the embedded functions: the code under
  verification only consumes them.
-/

namespace Substack

/-- `models.Post`: one archived article (dataclass `Post` in `models.py`).
`pub_date` is a `datetime` in the source, modelled as an integer timestamp. -/
structure Post where
  title : String
  link : String
  pub_date : Int
  description : String
  content : String := ""
deriving DecidableEq, Repr

/-- The JSON document stored in an EPUB's sidecar tracker file
(`epub_tracker.py`): keys `title`, `author`, `url`, `post_links`,
`last_updated`.  `last_updated` is `None` or an ISO timestamp string. -/
structure TrackerData where
  title : String
  author : String
  url : String
  post_links : List String
  last_updated : Option String
deriving DecidableEq, Repr

/-- The state of the tracker file on disk: missing, present but not valid
JSON, or present with a stored document. -/
inductive TrackerFile where
  | absent
  | corrupt
  | stored (d : TrackerData)
deriving DecidableEq, Repr

/-- Whether `os.path.exists` reports the tracker file. -/
def TrackerFile.present : TrackerFile → Bool
  | .absent => false
  | _ => true

namespace EpubTracker

/-- The default record `EpubTracker.load` returns when the tracker file is
missing or unreadable. -/
def emptyData : TrackerData :=
  { title := "", author := "", url := "", post_links := [], last_updated := none }

/-- `EpubTracker.load`: returns the stored JSON document, or the empty
default when the file is missing or fails to parse. -/
def load : TrackerFile → TrackerData
  | .absent => emptyData
  | .corrupt => emptyData
  | .stored d => d

/-- `EpubTracker.save(title, author, url, post_links)`: writes the record
with `last_updated = datetime.now().isoformat()`.  `now` is the
timestamp string produced by the clock; `writeOk` is false when the
`open`/`json.dump` raises `IOError` (the source catches it and leaves the
file as it was). -/
def save (title author url : String) (post_links : List String) (now : String)
    (writeOk : Bool) (fs : TrackerFile) : TrackerFile :=
  if writeOk then
    .stored { title := title, author := author, url := url,
              post_links := post_links, last_updated := some now }
  else fs

/-- `EpubTracker.get_new_posts(all_posts)`: loads the ledger, forms the set
of existing links, and keeps exactly the posts whose `link` is not in that
set (a Python list comprehension, hence a filter preserving input order).
Membership in `set(list)` coincides with membership in the list. -/
def get_new_posts (fs : TrackerFile) (all_posts : List Post) : List Post :=
  let existing_links := (load fs).post_links
  all_posts.filter (fun post => !(existing_links.contains post.link))

/-- `EpubTracker.exists()`: true iff both the EPUB file and the tracker
file exist on disk. -/
def exists_check (epubPresent : Bool) (fs : TrackerFile) : Bool :=
  epubPresent && fs.present

end EpubTracker

/-! ## Archive client (`fetcher.py`, `models.py`) -/

/-- `config.API_LIMIT_PER_REQUEST`: the fixed page size of the archive API. -/
def API_LIMIT_PER_REQUEST : Nat := 12

/-- One raw item of an archive API page, as consumed by
`Post.from_api_response` (`models.py`).  A JSON item is either not an
object at all, or an object whose relevant keys may each be missing.
Date strings are modelled by their parse result: `post_date = some t`
stands for a string `datetime.fromisoformat` parses to timestamp `t`,
`none` for a missing or unparseable date (the textual ISO-8601 parsing
itself is not under verification; no claim depends on it). -/
inductive ApiItem where
  | notDict
  | record (title : Option String) (canonical_url : Option String)
      (post_date : Option Int) (description : Option String)
deriving DecidableEq, Repr

/-- `Post.from_api_response(item)`: `None` for non-objects and for items
whose `canonical_url` is missing or empty (`item.get('canonical_url','')`
followed by the falsiness/`isinstance` check); otherwise a `Post` with
defaults `'No Title'` / `''` and the date fallback `datetime.now()`
(the `now` argument) for unparseable dates. -/
def Post.from_api_response (now : Int) : ApiItem → Option Post
  | .notDict => none
  | .record title canonical_url post_date description =>
    let t := title.getD "No Title"
    match canonical_url with
    | none => none
    | some u =>
      if u = "" then none
      else some { title := t, link := u, pub_date := post_date.getD now,
                  description := description.getD "", content := "" }

/-- The JSON body of one archive API response: a bare list, an object with
a `posts` list, an object whose `posts` value is not a list, or anything
else. -/
inductive ApiResponse where
  | rawList (items : List ApiItem)
  | postsList (items : List ApiItem)
  | postsNotList
  | otherShape
deriving DecidableEq, Repr

/-- `SubstackFetcher._parse_api_response(data)`: extracts the item list,
yielding `[]` (with a logged warning) for unexpected shapes. -/
def parse_api_response : ApiResponse → List ApiItem
  | .rawList items => items
  | .postsList items => items
  | .postsNotList => []
  | .otherShape => []

/-- The outcome of one `session.get` of an archive page: a transport-level
failure (timeout, HTTP error status, invalid JSON, connection error — all
of which `break` the pagination loop) or a JSON body. -/
inductive PageOutcome where
  | fetchError
  | success (r : ApiResponse)
deriving DecidableEq, Repr

/-- Python truthiness test `if limit and len(posts) >= limit` of the early
return inside `fetch_archive_metadata`. -/
def limitHit : Option Nat → Nat → Bool
  | none, _ => false
  | some l, n => decide (l ≠ 0) && decide (n ≥ l)

/-- The inner `for item in new_posts` loop of `fetch_archive_metadata`:
skips invalid items, appends valid posts, and performs the early
`return posts[:limit]` (second component `true`) as soon as the limit is
reached. -/
def itemLoop (now : Int) (limit : Option Nat) (acc : List Post) :
    List ApiItem → List Post × Bool
  | [] => (acc, false)
  | item :: rest =>
    match Post.from_api_response now item with
    | none => itemLoop now limit acc rest
    | some p =>
      let acc' := acc ++ [p]
      if limitHit limit acc'.length then (acc'.take (limit.getD 0), true)
      else itemLoop now limit acc' rest

/-- The pagination `while True` loop of `fetch_archive_metadata`.
`pages` lists the environment's answers to the successive page requests
(an exhausted list behaves like a transport failure: the loop stops).
Returns the accumulated posts, the offsets at which pages were actually
requested and answered, and whether the loop exited through the early
`return posts[:limit]` (which bypasses the final sort). -/
def fetchLoop (now : Int) (limit : Option Nat) :
    List PageOutcome → Nat → List Post → List Post × List Nat × Bool
  | [], _, acc => (acc, [], false)
  | .fetchError :: _, offset, acc => (acc, [offset], false)
  | .success r :: rest, offset, acc =>
    let new_posts := parse_api_response r
    if new_posts.isEmpty then (acc, [offset], false)
    else
      match itemLoop now limit acc new_posts with
      | (acc', true) => (acc', [offset], true)
      | (acc', false) =>
        if new_posts.length < API_LIMIT_PER_REQUEST then (acc', [offset], false)
        else
          let (ps, offs, early) := fetchLoop now limit rest (offset + new_posts.length) acc'
          (ps, offset :: offs, early)

/-- The key comparison of `posts.sort(key=lambda x: x.pub_date)`. -/
def dateLE (a b : Post) : Prop := a.pub_date ≤ b.pub_date

instance : DecidableRel dateLE := fun a b => Int.decLe a.pub_date b.pub_date

/-- `posts.sort(key=lambda x: x.pub_date)`: a stable ascending sort by
publication date.  Python's Timsort is a stable sort under the total
preorder on the keys; any stable sort computes the same list, so it is
modelled by stable insertion sort. -/
def sortByDate (posts : List Post) : List Post := posts.insertionSort dateLE

/-- `SubstackFetcher.fetch_archive_metadata(limit)`: runs the pagination
loop from offset 0 and sorts ascending by date — except that the early
`return posts[:limit]` path returns directly, without the sort.
Returns the post list and the list of requested offsets. -/
def fetch_archive_metadata (now : Int) (limit : Option Nat)
    (pages : List PageOutcome) : List Post × List Nat :=
  match fetchLoop now limit pages 0 [] with
  | (ps, offs, true) => (ps, offs)
  | (ps, offs, false) => (sortByDate ps, offs)

/-- Specification-side description of one page's contribution: the posts
that survive `Post.from_api_response` validation, in page order. -/
def validPosts (now : Int) (items : List ApiItem) : List Post :=
  items.filterMap (Post.from_api_response now)

/-- Specification-side description of the posts an unlimited fetch
accumulates: pages contribute their valid posts; an errored, exhausted or
empty page ends the walk, as does (after contributing) a page shorter
than the fixed page size. -/
def collectValidPosts (now : Int) : List PageOutcome → List Post
  | [] => []
  | .fetchError :: _ => []
  | .success r :: rest =>
    let items := parse_api_response r
    if items.isEmpty then []
    else if items.length < API_LIMIT_PER_REQUEST then validPosts now items
    else validPosts now items ++ collectValidPosts now rest

/-- Specification-side description of the offsets an unlimited fetch
requests: each answered page advances the offset by its full raw item
count (invalid items included), and the walk continues exactly when the
page was full. -/
def expectedOffsets : List PageOutcome → Nat → List Nat
  | [], _ => []
  | .fetchError :: _, off => [off]
  | .success r :: rest, off =>
    let items := parse_api_response r
    if items.isEmpty then [off]
    else if items.length < API_LIMIT_PER_REQUEST then [off]
    else off :: expectedOffsets rest (off + items.length)

/-! ## String helpers (Python `in`, `.lower()`, `.split()`) -/

/-- Whether `needle` is a prefix of `haystack` (on character lists). -/
def prefixChars : List Char → List Char → Bool
  | [], _ => true
  | _ :: _, [] => false
  | a :: as, b :: bs => a == b && prefixChars as bs

/-- Whether `needle` occurs inside `haystack` (on character lists). -/
def infixChars (needle : List Char) : List Char → Bool
  | [] => needle.isEmpty
  | l@(_ :: rest) => prefixChars needle l || infixChars needle rest

/-- Python's `needle in haystack` on strings. -/
def strContains (haystack needle : String) : Bool :=
  infixChars needle.data haystack.data

/-- Python's `s.lower()` (ASCII case folding suffices for the literals the
source compares against). -/
def lowerStr (s : String) : String := String.mk (s.data.map Char.toLower)

/-! ## Fetcher construction (`SubstackFetcher.__init__`) -/

/-- Splits a character list at the first occurrence of `://` (helper for
the simplified `urllib.parse.urlparse` model). -/
def splitSchemeChars : List Char → Option (List Char × List Char)
  | [] => none
  | ':' :: '/' :: '/' :: rest => some ([], rest)
  | c :: rest => (splitSchemeChars rest).map (fun p => (c :: p.1, p.2))

/-- Simplified model of `urllib.parse.urlparse` restricted to what the
constructor reads: for a `scheme://host/...` URL it yields the
lower-cased scheme and the network location (up to the next `/`, `?` or
`#`); for a URL without `://` it yields empty scheme and netloc (such
URLs fail the constructor's validity check either way). -/
def urlparse (url : String) : String × String :=
  match splitSchemeChars url.data with
  | none => ("", "")
  | some (schemeChars, rest) =>
    (String.mk (schemeChars.map Char.toLower),
     String.mk (rest.takeWhile (fun c => !(c == '/' || c == '?' || c == '#'))))

/-- Python truthiness of the `cookie` argument (`if cookie:`). -/
def cookieTruthy : Option String → Bool
  | none => false
  | some s => s != ""

/-- The configuration errors `SubstackFetcher.__init__` can raise. -/
inductive InitError where
  | emptyUrl
  | invalidFormat
  | httpCookie
deriving DecidableEq, Repr

/-- The part of the constructed fetcher state the claims depend on. -/
structure FetcherState where
  url : String
  api_url : String
  hasCookie : Bool
deriving DecidableEq, Repr

/-- `url.rstrip('/')`. -/
def rstripSlash (url : String) : String :=
  String.mk (((url.data.reverse).dropWhile (fun c => c == '/')).reverse)

/-- `SubstackFetcher.__init__(url, cookie, ...)`: raises `ValueError` for
an empty URL, for a URL without scheme or netloc, and — the security
check — for an `http` scheme combined with a truthy cookie.  The
constructor performs no network request: it only builds headers and a
`requests.Session`, so every `.error` outcome occurs before any network
activity. -/
def SubstackFetcher.init (url : String) (cookie : Option String) :
    Except InitError FetcherState :=
  if url = "" then .error .emptyUrl
  else
    let parsed := urlparse url
    if parsed.1 = "" ∨ parsed.2 = "" then .error .invalidFormat
    else if parsed.1 = "http" && cookieTruthy cookie then .error .httpCookie
    else
      let u := rstripSlash url
      .ok { url := u, api_url := u ++ "/api/v1/archive", hasCookie := cookieTruthy cookie }

/-! ## Orchestrator (`orchestrator.py`, `run_download`) -/

/-- The environment of one `run_download` call: its arguments and the
behaviour of its collaborators (file system, archive API, per-post
content fetches, sanitizer, compiler, clock). -/
structure OrchEnv where
  url : String
  cookie : Option String
  /-- `mode == "Update Existing EPUB"`. -/
  mode_update : Bool
  /-- `format_option == "EPUB"`. -/
  format_epub : Bool
  /-- The CLI post limit; `0` means unbounded. -/
  limit : Nat
  /-- Whether the target EPUB file exists on disk. -/
  epub_present : Bool
  /-- The tracker ledger file state. -/
  tracker_file : TrackerFile
  /-- The archive API's answers to successive page requests. -/
  pages : List PageOutcome
  /-- Clock value used for unparseable-date fallbacks. -/
  now : Int
  /-- `fetch_post_content` per link (total: the source catches every
  exception and returns `""`). -/
  content_of : String → String
  /-- The sanitizer `parse_content` (pure string transform). -/
  clean : String → String
  /-- Whether the compiler call returns normally (false models an
  exception raised during compilation). -/
  compile_ok : Bool
  /-- Whether the final tracker write succeeds. -/
  save_ok : Bool
  /-- `datetime.now().isoformat()` at tracker-save time. -/
  save_now : String
  newsletter_title : String
  newsletter_author : String

/-- Externally visible side effects of a run, in program order. -/
inductive OrchEvent where
  | fetch_title
  | fetch_author
  | fetch_metadata
  | fetch_content (link : String)
  | compile_attempt
  | compile_done
  | ledger_write (fs : TrackerFile)
deriving DecidableEq, Repr

/-- Errors that propagate out of `run_download` (it installs no handler). -/
inductive RunError where
  | initError (e : InitError)
  | compileError
deriving DecidableEq, Repr

/-- The fields of the `OrchestratorResult` dataclass the claims mention. -/
structure OrchestratorResult where
  status : String
  message : String
deriving DecidableEq, Repr

/-- Result, side-effect trace, and final ledger file of one run. -/
structure RunOutcome where
  result : Except RunError OrchestratorResult
  trace : List OrchEvent
  fs : TrackerFile

/-- A completed run returning a structured (non-exception) outcome. -/
def RunOutcome.done (status message : String) (trace : List OrchEvent)
    (fs : TrackerFile) : RunOutcome :=
  { result := .ok { status := status, message := message }, trace := trace, fs := fs }

/-- The content loop of `run_download`: each post's content is fetched
and cleaned, and assigned to the post (`meta.content = parse_content(...)`). -/
def cleanedPosts (env : OrchEnv) (metadata_list : List Post) : List Post :=
  metadata_list.map (fun m => { m with content := env.clean (env.content_of m.link) })

/-- The compile-and-record tail of `run_download` (everything after
`metadata_list` is known to be non-empty): content fetching, format
dispatch, compilation, and — on the EPUB path only, and only after the
compiler returned — the tracker write. -/
def continueRun (env : OrchEnv) (trace : List OrchEvent)
    (metadata_list : List Post) : RunOutcome :=
  let cleaned := cleanedPosts env metadata_list
  let trace2 := trace ++ metadata_list.map (fun m => OrchEvent.fetch_content m.link)
  if env.mode_update || env.format_epub then
    let trace3 := trace2 ++ [.compile_attempt]
    if !env.compile_ok then
      { result := .error .compileError, trace := trace3, fs := env.tracker_file }
    else
      let trace4 := trace3 ++ [.compile_done]
      if env.mode_update then
        let existing := EpubTracker.load env.tracker_file
        let all_links := existing.post_links ++ cleaned.map Post.link
        let fs' := EpubTracker.save env.newsletter_title env.newsletter_author env.url
          all_links env.save_now env.save_ok env.tracker_file
        RunOutcome.done "ok" "Success" (trace4 ++ [.ledger_write fs']) fs'
      else
        let fs' := EpubTracker.save env.newsletter_title env.newsletter_author env.url
          (cleaned.map Post.link) env.save_now env.save_ok env.tracker_file
        RunOutcome.done "ok" "Success" (trace4 ++ [.ledger_write fs']) fs'
  else
    let trace3 := trace2 ++ [.compile_attempt]
    if !env.compile_ok then
      { result := .error .compileError, trace := trace3, fs := env.tracker_file }
    else
      RunOutcome.done "ok" "Success" (trace3 ++ [.compile_done]) env.tracker_file

/-- `run_download`: constructs the fetcher (configuration errors
propagate), fetches title and author, then follows the update or create
path.  The update path first requires `tracker.exists()` and otherwise
returns the `missing_epub` outcome before any API metadata request. -/
def run_download (env : OrchEnv) : RunOutcome :=
  match SubstackFetcher.init env.url env.cookie with
  | .error e => { result := .error (.initError e), trace := [], fs := env.tracker_file }
  | .ok _ =>
    let trace0 := [OrchEvent.fetch_title, OrchEvent.fetch_author]
    if env.mode_update then
      if !(EpubTracker.exists_check env.epub_present env.tracker_file) then
        RunOutcome.done "missing_epub"
          "No existing EPUB found. Please create one first." trace0 env.tracker_file
      else
        let trace1 := trace0 ++ [.fetch_metadata]
        let all_metadata := (fetch_archive_metadata env.now none env.pages).1
        let metadata_list := EpubTracker.get_new_posts env.tracker_file all_metadata
        if metadata_list.isEmpty then
          RunOutcome.done "no_new_posts"
            "No new posts found! Your EPUB is up to date." trace1 env.tracker_file
        else continueRun env trace1 metadata_list
    else
      let trace1 := trace0 ++ [.fetch_metadata]
      let fetch_limit : Option Nat := if env.limit = 0 then none else some env.limit
      let metadata_list := (fetch_archive_metadata env.now fetch_limit env.pages).1
      if metadata_list.isEmpty then
        RunOutcome.done "no_posts"
          "No posts found. Please check the URL." trace1 env.tracker_file
      else continueRun env trace1 metadata_list

/-- The list of posts a run hands to the compiler (before content
attachment): the ledger diff in update mode, the limited fetch result in
create mode. -/
def metadataListOf (env : OrchEnv) : List Post :=
  if env.mode_update then
    EpubTracker.get_new_posts env.tracker_file
      (fetch_archive_metadata env.now none env.pages).1
  else
    (fetch_archive_metadata env.now
      (if env.limit = 0 then none else some env.limit) env.pages).1

/-- A concrete update-mode environment whose target EPUB/ledger pair is
missing (used to witness the missing-base-artifact claim). -/
def envMissing : OrchEnv :=
  { url := "https://ex.substack.com", cookie := none, mode_update := true,
    format_epub := true, limit := 0, epub_present := false,
    tracker_file := .absent, pages := [], now := 0,
    content_of := fun _ => "", clean := fun s => s, compile_ok := true,
    save_ok := true, save_now := "2026-01-01T00:00:00",
    newsletter_title := "T", newsletter_author := "Au" }

/-- The stored ledger document of the concrete update-mode run below. -/
def storedA : TrackerData :=
  { title := "T", author := "Au", url := "https://ex.substack.com",
    post_links := ["A"], last_updated := some "2025-01-01T00:00:00" }

/-- A concrete successful update-mode run over a ledger holding `A` and an
archive holding one new post `B` (used to witness the
ledger-after-compile claim). -/
def envUpdate : OrchEnv :=
  { url := "https://ex.substack.com", cookie := none, mode_update := true,
    format_epub := true, limit := 0, epub_present := true,
    tracker_file := .stored storedA,
    pages := [.success (.rawList [.record (some "b") (some "B") (some 3) none])],
    now := 0, content_of := fun _ => "c", clean := fun s => s,
    compile_ok := true, save_ok := true, save_now := "2026-01-01T00:00:00",
    newsletter_title := "T", newsletter_author := "Au" }

/-- The ledger file the concrete update-mode run leaves behind. -/
def storedAB : TrackerData :=
  { title := "T", author := "Au", url := "https://ex.substack.com",
    post_links := ["A", "B"], last_updated := some "2026-01-01T00:00:00" }

/-! ## Media processor (`compiler/media.py`, `MediaProcessor.download_image`) -/

/-- `config.MAX_IMAGE_SIZE` default: 10 MB. -/
def MAX_IMAGE_SIZE : Nat := 10 * 1024 * 1024

/-- Failures `requests.get`/`raise_for_status` can raise before streaming
starts: a timeout or any other `RequestException` (connection error,
error HTTP status). -/
inductive ReqError where
  | timeout
  | requestFailed
deriving DecidableEq, Repr

/-- The declared `Content-Length` header: absent, present but not an
integer (`int` raises `ValueError`, which the source catches and
ignores), or an integer byte count. -/
inductive ContentLength where
  | absent
  | invalid
  | value (n : Nat)
deriving DecidableEq, Repr

/-- The response headers `download_image` reads. -/
structure ImgHeaders where
  content_length : ContentLength
  content_type : String
deriving DecidableEq, Repr

/-- One step of `response.iter_content`: a delivered chunk (with the
success of the subsequent local `f.write`), or a mid-stream network
failure raised by the iterator. -/
inductive StreamEvent where
  | chunk (size : Nat) (writeOk : Bool)
  | timeoutMid
  | transportMid
deriving DecidableEq, Repr

/-- How the `for chunk in response.iter_content(...)` loop ends, with the
number of bytes already written to the partial file at that point. -/
inductive StreamResult where
  | completed (written : Nat)
  | limitExceeded (written : Nat)
  | timeoutErr (written : Nat)
  | transportErr (written : Nat)
  | writeErr (written : Nat)
deriving DecidableEq, Repr

/-- The streaming loop of `download_image`: falsy (empty) chunks are
skipped; the running total is incremented and checked against the limit
*before* the chunk is written (`bytes_written += len(chunk)`,
`if bytes_written > MAX_IMAGE_SIZE: raise ValueError`, `f.write(chunk)`). -/
def streamLoop (maxSize : Nat) : List StreamEvent → Nat → StreamResult
  | [], w => .completed w
  | .chunk 0 _ :: rest, w => streamLoop maxSize rest w
  | .chunk n writeOk :: rest, w =>
    if w + n > maxSize then .limitExceeded w
    else if writeOk then streamLoop maxSize rest (w + n)
    else .writeErr w
  | .timeoutMid :: _, w => .timeoutErr w
  | .transportMid :: _, w => .transportErr w

/-- The pre-stream check `int(content_length) > MAX_IMAGE_SIZE`. -/
def contentLengthExceeds : ContentLength → Nat → Bool
  | .value n, maxSize => decide (n > maxSize)
  | _, _ => false

/-- Destination extension: from the declared content type
(png/gif/svg/jpeg), then sniffed from the URL, defaulting to `jpg`. -/
def imageExt (content_type img_url : String) : String :=
  let ct := lowerStr content_type
  if strContains ct "image/png" then "png"
  else if strContains ct "image/gif" then "gif"
  else if strContains ct "image/svg" then "svg"
  else if strContains ct "image/jpeg" || strContains ct "image/jpg" then "jpg"
  else if strContains img_url ".png" then "png"
  else if strContains img_url ".gif" then "gif"
  else if strContains img_url ".svg" then "svg"
  else "jpg"

/-- `MediaProcessor.download_image(img_url)`.  Inputs: the size limit,
the images directory, the generated `uuid4` token, the URL, and the
network behaviour (`req`).  Output: the returned
`(local_path, local_filename)` pair, and the byte count of the file left
at the destination path after the call (`none` = no file on disk: every
handler removes the partial file with `os.remove` before returning
`(None, None)`). -/
def download_image (maxSize : Nat) (images_dir uuid img_url : String)
    (req : Except ReqError (ImgHeaders × List StreamEvent)) :
    (Option String × Option String) × Option Nat :=
  match req with
  | .error _ => ((none, none), none)
  | .ok (hdrs, events) =>
    if contentLengthExceeds hdrs.content_length maxSize then ((none, none), none)
    else
      let ext := imageExt hdrs.content_type img_url
      let filename := uuid ++ "." ++ ext
      let filepath := images_dir ++ "/" ++ filename
      match streamLoop maxSize events 0 with
      | .completed w => ((some filepath, some filename), some w)
      | _ => ((none, none), none)

/-! ## Content sanitizer (`parser.py`, `SubstackParser.parse_content`)

The sanitizer works on the parse tree BeautifulSoup builds with the
`html.parser` builder.  The embedding works directly on that tree: an
HTML document is a forest of nodes, each element carrying its tag name
and its raw `class` attribute.  (Serialising with `str(soup)` and
re-parsing the result is the identity on the tree for this builder, so
string-level idempotence coincides with tree-level idempotence.  Note
that Python's `html.parser` builder performs no HTML5 tree correction:
in particular it happily nests `<a>` elements, which is what the
counterexample below exploits.) -/

/-- A BeautifulSoup parse-tree node: a `NavigableString` or a `Tag` with
its name, its raw `class` attribute value (`""` when absent) and its
children.  Other attributes are not consulted by the sanitizer. -/
inductive Node where
  | text (s : String)
  | elem (tag : String) (classAttr : String) (children : List Node)

mutual
/-- Decidable equality on nodes (the derive handler does not support
nested inductives). -/
def Node.deq : (a b : Node) → Decidable (a = b)
  | .text s, .text t =>
    match String.decEq s t with
    | isTrue h => isTrue (by rw [h])
    | isFalse h => isFalse (fun hh => h (by cases hh; rfl))
  | .text _, .elem _ _ _ => isFalse (fun h => Node.noConfusion h)
  | .elem _ _ _, .text _ => isFalse (fun h => Node.noConfusion h)
  | .elem t1 c1 ch1, .elem t2 c2 ch2 =>
    match String.decEq t1 t2 with
    | isFalse h => isFalse (fun hh => h (by cases hh; rfl))
    | isTrue h1 =>
      match String.decEq c1 c2 with
      | isFalse h => isFalse (fun hh => h (by cases hh; rfl))
      | isTrue h2 =>
        match Node.deqList ch1 ch2 with
        | isFalse h => isFalse (fun hh => h (by cases hh; rfl))
        | isTrue h3 => isTrue (by rw [h1, h2, h3])

/-- Decidable equality on node forests. -/
def Node.deqList : (a b : List Node) → Decidable (a = b)
  | [], [] => isTrue rfl
  | [], _ :: _ => isFalse (fun h => List.noConfusion h)
  | _ :: _, [] => isFalse (fun h => List.noConfusion h)
  | a :: as, b :: bs =>
    match Node.deq a b with
    | isFalse h => isFalse (fun hh => h (by cases hh; rfl))
    | isTrue h1 =>
      match Node.deqList as bs with
      | isFalse h => isFalse (fun hh => h (by cases hh; rfl))
      | isTrue h2 => isTrue (by rw [h1, h2])
end

instance : DecidableEq Node := Node.deq

/-- Splitting a `class` attribute value into its whitespace-separated
tokens (the multi-valued class list BeautifulSoup exposes, and the token
set the CSS `.foo` selector tests). -/
def tokensAux : List Char → List Char → List String
  | [], cur => [String.mk cur.reverse]
  | ' ' :: rest, cur => String.mk cur.reverse :: tokensAux rest []
  | c :: rest, cur => tokensAux rest (c :: cur)

/-- Class tokens of a raw `class` attribute value. -/
def classTokens (c : String) : List String := tokensAux c.data []

/-- Whether an element matches one of the selectors in
`selectors_to_remove`: the six class selectors, the two substring
selectors `div[class*="subscribe"]` / `div[class*="share"]`, or the bare
tag selector `button`.  Matching depends only on the element's own tag
and class attribute. -/
def matchesRemovalSelector (tag classAttr : String) : Bool :=
  let toks := classTokens classAttr
  toks.contains "subscription-widget-wrap" ||
  toks.contains "share-dialog" ||
  toks.contains "share-button" ||
  toks.contains "post-footer" ||
  toks.contains "comments-section" ||
  toks.contains "subscribe-footer" ||
  (tag == "div" && strContains classAttr "subscribe") ||
  (tag == "div" && strContains classAttr "share") ||
  tag == "button"

mutual
/-- First removal pass of `parse_content`: `element.decompose()` for every
element matching `selectors_to_remove` (the whole subtree goes). -/
def removeSelNode : Node → List Node
  | .text s => [.text s]
  | .elem tag cls children =>
    if matchesRemovalSelector tag cls then []
    else [.elem tag cls (removeSelList children)]

/-- `removeSelNode` over a forest. -/
def removeSelList : List Node → List Node
  | [] => []
  | n :: rest => removeSelNode n ++ removeSelList rest
end

/-- BeautifulSoup's `Tag.string`: defined when the node is a string, or a
tag whose single child recursively has a `.string`; `None` otherwise. -/
def nodeString : Node → Option String
  | .text s => some s
  | .elem _ _ [n] => nodeString n
  | .elem _ _ _ => none

/-- The condition under which the second pass removes an anchor:
`soup.find_all('a', string=lambda t: t and "subscribe" in t.lower())`
followed by `a.parent.name == 'div' or 'button' in a.get('class', [])`. -/
def anchorMatches (parentTag : String) : Node → Bool
  | .text _ => false
  | .elem tag cls children =>
    tag == "a"
    && (match nodeString (.elem tag cls children) with
        | some s => strContains (lowerStr s) "subscribe"
        | none => false)
    && (parentTag == "div" || (classTokens cls).contains "button")

mutual
/-- Second removal pass of `parse_content`: decompose the matching
"Subscribe" anchors.  The parent's tag name is passed down; the root of
the soup is the `[document]` pseudo-tag. -/
def removeSubAnchorNode (parentTag : String) : Node → List Node
  | .text s => [.text s]
  | .elem tag cls children =>
    if anchorMatches parentTag (.elem tag cls children) then []
    else [.elem tag cls (removeSubAnchorList tag children)]

/-- `removeSubAnchorNode` over a forest of siblings. -/
def removeSubAnchorList (parentTag : String) : List Node → List Node
  | [] => []
  | n :: rest => removeSubAnchorNode parentTag n ++ removeSubAnchorList parentTag rest
end

/-- `SubstackParser.parse_content(html_content)` on the parse tree: the
selector pass followed by the subscribe-anchor pass.  (The guard
`if not html_content: return ""` is the empty-forest case.) -/
def parse_content (html : List Node) : List Node :=
  removeSubAnchorList "[document]" (removeSelList html)

mutual
/-- No element of the subtree (including the node itself) is an `<a>`. -/
def anchorFreeNode : Node → Bool
  | .text _ => true
  | .elem tag _ children => tag != "a" && anchorFreeList children

/-- `anchorFreeNode` over a forest. -/
def anchorFreeList : List Node → Bool
  | [] => true
  | n :: rest => anchorFreeNode n && anchorFreeList rest
end

mutual
/-- No `<a>` element of the subtree contains another `<a>` element. -/
def noNestedAnchorNode : Node → Bool
  | .text _ => true
  | .elem tag _ children =>
    if tag == "a" then anchorFreeList children else noNestedAnchorList children

/-- `noNestedAnchorNode` over a forest. -/
def noNestedAnchorList : List Node → Bool
  | [] => true
  | n :: rest => noNestedAnchorNode n && noNestedAnchorList rest
end

mutual
/-- No element of the subtree matches `selectors_to_remove`. -/
def selFreeNode : Node → Bool
  | .text _ => true
  | .elem tag cls children => !matchesRemovalSelector tag cls && selFreeList children

/-- `selFreeNode` over a forest. -/
def selFreeList : List Node → Bool
  | [] => true
  | n :: rest => selFreeNode n && selFreeList rest
end

/-! ## Claim C1: ledger diffing -/

/-- Claim C1: for every ledger state and every fetched list of posts,
`EpubTracker.get_new_posts` returns exactly the posts whose link is not a
member of the ledger's `post_links` set (fetched minus included), so a
post whose link is already recorded is never returned for re-inclusion;
the concrete `{A,B}` / `{A,B,C,D}` instance of the spec is the second
conjunct. -/
theorem get_new_posts_is_ledger_diff :
    (∀ (fs : TrackerFile) (all_posts : List Post) (p : Post),
      p ∈ EpubTracker.get_new_posts fs all_posts ↔
        p ∈ all_posts ∧ p.link ∉ (EpubTracker.load fs).post_links) ∧
    EpubTracker.get_new_posts
        (.stored { EpubTracker.emptyData with post_links := ["A", "B"] })
        [⟨"a", "A", 0, "", ""⟩, ⟨"b", "B", 1, "", ""⟩, ⟨"c", "C", 2, "", ""⟩,
         ⟨"d", "D", 3, "", ""⟩]
      = [⟨"c", "C", 2, "", ""⟩, ⟨"d", "D", 3, "", ""⟩] := by
  constructor
  · intro fs all_posts p
    simp [EpubTracker.get_new_posts, List.mem_filter]
  · decide

/-! ## Claim C10: order preservation of the ledger diff -/

/-- Claim C10 (implicit): `get_new_posts` is the order-preserving
subsequence filter of its input — it equals the filter of `all_posts` by
"link absent from the ledger", hence is a sublist of `all_posts`, and a
date-sorted input yields a date-sorted output. -/
theorem get_new_posts_preserves_order (fs : TrackerFile) (all_posts : List Post) :
    EpubTracker.get_new_posts fs all_posts
        = all_posts.filter (fun p => decide (p.link ∉ (EpubTracker.load fs).post_links)) ∧
    (EpubTracker.get_new_posts fs all_posts).Sublist all_posts ∧
    (all_posts.Sorted dateLE → (EpubTracker.get_new_posts fs all_posts).Sorted dateLE) := by
  have hfil : EpubTracker.get_new_posts fs all_posts
      = all_posts.filter (fun p => decide (p.link ∉ (EpubTracker.load fs).post_links)) := by
    apply List.filter_congr
    intro p _
    simp [EpubTracker.get_new_posts]
  refine ⟨hfil, ?_, ?_⟩
  · rw [hfil]; exact List.filter_sublist all_posts
  · intro hs
    exact hs.sublist (hfil ▸ List.filter_sublist all_posts)

/-- Witness for C10 at a concrete ledger and sorted input. -/
theorem get_new_posts_preserves_order_witness :
    ([⟨"c", "C", 2, "", ""⟩] : List Post).Sorted dateLE :=
  (get_new_posts_preserves_order
      (.stored { EpubTracker.emptyData with post_links := ["A"] })
      [⟨"a", "A", 1, "", ""⟩, ⟨"c", "C", 2, "", ""⟩]).2.2
    (by simp [List.Sorted, dateLE])

/-! ## Claim C3: ledger round trip -/

/-- Claim C3: `save(title, author, url, links)` followed by `load()`
yields a record whose `post_links` equals the saved links (hence equal as
a set, order-insensitively) and whose `last_updated` is non-null.  The
`true` argument is the success of the file write; a failed write is
caught and logged by the source without updating the file, so the
round-trip property concerns the completed write. -/
theorem tracker_save_load_roundtrip (title author url : String)
    (links : List String) (now : String) (fs : TrackerFile) :
    (EpubTracker.load (EpubTracker.save title author url links now true fs)).post_links
        = links ∧
    (EpubTracker.load (EpubTracker.save title author url links now true fs)).post_links.toFinset
        = links.toFinset ∧
    (EpubTracker.load (EpubTracker.save title author url links now true fs)).last_updated
        ≠ none := by
  simp [EpubTracker.load, EpubTracker.save]

/-! ## Claim C9: HTTP + credential fails fast -/

/-- Claim C9: constructing the fetcher with an `http`-scheme URL (with a
non-empty netloc) and a truthy session cookie fails with the dedicated
configuration error — raised by the constructor itself, which performs no
network request — while an `https` URL with a credential, or an `http`
URL without one, never produces that error. -/
theorem init_http_cookie_fails (url : String) (cookie : Option String) :
    ((urlparse url).1 = "http" → (urlparse url).2 ≠ "" → cookieTruthy cookie = true →
      SubstackFetcher.init url cookie = .error .httpCookie) ∧
    ((urlparse url).1 = "https" ∨ cookieTruthy cookie = false →
      SubstackFetcher.init url cookie ≠ .error .httpCookie) := by
  constructor
  · intro hscheme hnet hcookie
    have hurl : url ≠ "" := by
      intro h
      rw [h] at hscheme
      simp [urlparse, splitSchemeChars] at hscheme
    simp only [SubstackFetcher.init, if_neg hurl]
    rw [if_neg, if_pos]
    · simp [hscheme, hcookie]
    · intro h
      rcases h with h | h
      · rw [hscheme] at h; simp at h
      · exact hnet h
  · intro h hcontra
    simp only [SubstackFetcher.init] at hcontra
    split at hcontra
    · simp at hcontra
    · split at hcontra
      · simp at hcontra
      · split at hcontra
        · rename_i hcond
          rcases h with h | h
          · rw [h] at hcond; simp at hcond
          · rw [h] at hcond; simp at hcond
        · simp at hcontra

/-- Witness for C9: a concrete `http` URL with a cookie is rejected, and
the same URL under `https` with the same cookie is not rejected with the
security error. -/
theorem init_http_cookie_fails_witness :
    SubstackFetcher.init "http://example.substack.com" (some "sid") =
      .error .httpCookie :=
  (init_http_cookie_fails "http://example.substack.com" (some "sid")).1
    (by decide) (by decide) (by decide)

/-! ## Claim C8: bounded image download -/

/-- Claim C8: whenever the request fails outright, the declared
`Content-Length` exceeds the limit, or the streaming loop aborts (running
total over the limit, mid-stream timeout or transport error, or local
write failure), `download_image` returns the `(None, None)` pair and
leaves no file on disk (the handlers remove the partial file). -/
theorem download_image_failure_cleanup (maxSize : Nat)
    (images_dir uuid img_url : String) :
    (∀ e, download_image maxSize images_dir uuid img_url (.error e)
        = ((none, none), none)) ∧
    (∀ hdrs events, contentLengthExceeds hdrs.content_length maxSize = true →
      download_image maxSize images_dir uuid img_url (.ok (hdrs, events))
        = ((none, none), none)) ∧
    (∀ hdrs events w,
      (streamLoop maxSize events 0 = .limitExceeded w ∨
       streamLoop maxSize events 0 = .timeoutErr w ∨
       streamLoop maxSize events 0 = .transportErr w ∨
       streamLoop maxSize events 0 = .writeErr w) →
      download_image maxSize images_dir uuid img_url (.ok (hdrs, events))
        = ((none, none), none)) := by
  refine ⟨fun e => rfl, ?_, ?_⟩
  · intro hdrs events h
    simp [download_image, h]
  · intro hdrs events w h
    have hne : contentLengthExceeds hdrs.content_length maxSize = true ∨
        contentLengthExceeds hdrs.content_length maxSize = false := by
      cases contentLengthExceeds hdrs.content_length maxSize <;> simp
    rcases hne with hc | hc
    · simp [download_image, hc]
    · simp only [download_image, hc, Bool.false_eq_true, if_false]
      rcases h with h | h | h | h <;> rw [h]

/-- Witness for C8: an 11-byte declared length against a 10-byte limit,
and a mid-stream overrun, both yield the null pair and an empty disk. -/
theorem download_image_failure_cleanup_witness :
    download_image 10 "images" "u0" "http://x/pic"
        (.ok ({ content_length := .value 11, content_type := "" }, []))
      = ((none, none), none) :=
  (download_image_failure_cleanup 10 "images" "u0" "http://x/pic").2.1
    { content_length := .value 11, content_type := "" } [] (by decide)

/-! ## Claims C2 and C7: metadata pagination -/

/-- Without a limit, the inner item loop appends exactly the valid posts
of the page and never triggers the early return. -/
theorem itemLoop_no_limit (now : Int) (items : List ApiItem) :
    ∀ acc, itemLoop now none acc items = (acc ++ validPosts now items, false) := by
  induction items with
  | nil => intro acc; simp [itemLoop, validPosts]
  | cons it rest ih =>
    intro acc
    cases hfa : Post.from_api_response now it with
    | none =>
      simp [itemLoop, hfa, validPosts, List.filterMap_cons_none hfa, ih acc]
    | some p =>
      simp [itemLoop, hfa, limitHit, validPosts, List.filterMap_cons_some hfa,
        ih (acc ++ [p]), List.append_assoc]

/-- Without a limit, the pagination loop accumulates the valid posts and
requests exactly the expected offsets, never exiting early. -/
theorem fetchLoop_no_limit (now : Int) (pages : List PageOutcome) :
    ∀ off acc, fetchLoop now none pages off acc
      = (acc ++ collectValidPosts now pages, expectedOffsets pages off, false) := by
  induction pages with
  | nil => intro off acc; simp [fetchLoop, collectValidPosts, expectedOffsets]
  | cons pg rest ih =>
    intro off acc
    cases pg with
    | fetchError => simp [fetchLoop, collectValidPosts, expectedOffsets]
    | success r =>
      by_cases hemp : (parse_api_response r).isEmpty
      · simp [fetchLoop, hemp, collectValidPosts, expectedOffsets]
      · by_cases hlen : (parse_api_response r).length < API_LIMIT_PER_REQUEST
        · simp [fetchLoop, hemp, hlen, itemLoop_no_limit, collectValidPosts,
            expectedOffsets]
        · simp [fetchLoop, hemp, hlen, itemLoop_no_limit, collectValidPosts,
            expectedOffsets, ih (off + (parse_api_response r).length),
            List.append_assoc]

/-- Claim C7: for every sequence of metadata pages, the unlimited fetch
returns exactly the date-sorted valid posts — items that are not objects
or lack a usable (non-empty string) canonical link are dropped by
`Post.from_api_response` and contribute nothing — while the requested
offsets advance by the full raw item count of each page and a further
page is requested exactly when the current page was full. -/
theorem fetch_metadata_skips_invalid_items (now : Int) (pages : List PageOutcome) :
    fetch_archive_metadata now none pages
      = (sortByDate (collectValidPosts now pages), expectedOffsets pages 0) := by
  simp [fetch_archive_metadata, fetchLoop_no_limit now pages 0 []]

/-- Claim C2 counterexample: with `limit=2` and a single page holding two
valid posts in newest-first order, the early `return posts[:limit]` path
skips the final sort, so the returned list is *not* sorted ascending by
publication date — refuting the claim for runs whose limit is reached. -/
theorem fetch_metadata_limit_unsorted :
    ¬ ((fetch_archive_metadata 0 (some 2)
        [.success (.rawList
          [.record (some "a") (some "A") (some 5) none,
           .record (some "b") (some "B") (some 3) none])]).1).Sorted dateLE := by
  intro h
  have := List.rel_of_sorted_cons h ⟨"b", "B", 3, "", ""⟩ (by decide)
  simp [dateLE] at this

/-- Claim C2 as amended: the returned list is sorted non-decreasing by
publication date whenever the fetch does not exit through the early
`return posts[:limit]` path (in particular whenever `limit` is absent,
zero, or not reached); on the early path the code returns the truncated
accumulation in arrival order without sorting. -/
theorem fetch_metadata_sorted_unless_early (now : Int) (limit : Option Nat)
    (pages : List PageOutcome)
    (h : (fetchLoop now limit pages 0 []).2.2 = false) :
    ((fetch_archive_metadata now limit pages).1).Sorted dateLE := by
  haveI : IsTotal Post dateLE := ⟨fun a b => Int.le_total a.pub_date b.pub_date⟩
  haveI : IsTrans Post dateLE := ⟨fun a b c hab hbc => le_trans hab hbc⟩
  rcases hfl : fetchLoop now limit pages 0 [] with ⟨ps, offs, early⟩
  rw [hfl] at h
  simp at h
  subst h
  simp [fetch_archive_metadata, hfl, sortByDate]
  exact List.sorted_insertionSort dateLE ps

/-- Witness for amended C2: a fetch whose limit is not reached exits
through the sorting path and returns a date-sorted list. -/
theorem fetch_metadata_sorted_unless_early_witness :
    ((fetch_archive_metadata 0 (some 5)
        [.success (.rawList
          [.record (some "a") (some "A") (some 5) none,
           .record (some "b") (some "B") (some 3) none])]).1).Sorted dateLE :=
  fetch_metadata_sorted_unless_early 0 (some 5)
    [.success (.rawList
      [.record (some "a") (some "A") (some 5) none,
       .record (some "b") (some "B") (some 3) none])] (by decide)

/-! ## Claims C4 and C5: orchestrator control flow -/

/-- A trace that equals `pre ++ [ledger_write f] ++ suf` contains that
write event. -/
theorem write_mem_of_trace_eq {t pre suf : List OrchEvent} {f : TrackerFile}
    (h : t = pre ++ OrchEvent.ledger_write f :: suf) :
    OrchEvent.ledger_write f ∈ t := by
  subst h
  exact List.mem_append_right _ (List.mem_cons_self _ _)

/-- Decomposing a trace that ends in its only ledger write: the claimed
occurrence is that final event. -/
theorem last_write_aux (fsw : TrackerFile) (A : List OrchEvent) :
    ∀ (pre suf : List OrchEvent) (f : TrackerFile),
      (∀ g, OrchEvent.ledger_write g ∉ A) →
      A ++ [OrchEvent.ledger_write fsw] = pre ++ OrchEvent.ledger_write f :: suf →
      f = fsw ∧ pre = A ∧ suf = [] := by
  induction A with
  | nil =>
    intro pre suf f _ h
    cases pre with
    | nil =>
      rw [List.nil_append, List.nil_append] at h
      injection h with h1 h2
      injection h1 with h3
      exact ⟨h3.symm, rfl, h2.symm⟩
    | cons p pre' =>
      rw [List.nil_append, List.cons_append] at h
      injection h with _ h2
      exact absurd h2.symm (by simp)
  | cons a A ih =>
    intro pre suf f hA h
    cases pre with
    | nil =>
      rw [List.cons_append, List.nil_append] at h
      injection h with h1 _
      have hmem : OrchEvent.ledger_write f ∈ a :: A := by
        rw [← h1]
        exact List.mem_cons_self a A
      exact absurd hmem (hA f)
    | cons p pre' =>
      rw [List.cons_append, List.cons_append] at h
      injection h with h1 h2
      obtain ⟨hf, hpre, hsuf⟩ :=
        ih pre' suf f (fun g hg => hA g (List.mem_cons_of_mem a hg)) h2
      refine ⟨hf, ?_, hsuf⟩
      rw [← h1, hpre]

/-- Attaching content does not change a post's link, so the compiled
posts' links are the metadata list's links. -/
theorem cleanedPosts_links (env : OrchEnv) (ml : List Post) :
    (cleanedPosts env ml).map Post.link = ml.map Post.link := by
  simp [cleanedPosts, List.map_map]

/-- No ledger write occurs among title/author/metadata/content/compile
events. -/
theorem no_write_in_tail (trace : List OrchEvent) (ml : List Post)
    (htrace : ∀ g, OrchEvent.ledger_write g ∉ trace) :
    ∀ g, OrchEvent.ledger_write g ∉
      ((trace ++ ml.map (fun m => OrchEvent.fetch_content m.link))
        ++ [OrchEvent.compile_attempt]) ++ [OrchEvent.compile_done] := by
  intro g hg
  simp only [List.mem_append, List.mem_singleton] at hg
  rcases hg with ((hg | hg) | hg) | hg
  · exact htrace g hg
  · rcases List.mem_map.mp hg with ⟨m, _, hm⟩
    exact OrchEvent.noConfusion hm
  · exact OrchEvent.noConfusion hg
  · exact OrchEvent.noConfusion hg

/-- No ledger write occurs before the compile attempt either. -/
theorem no_write_in_attempt (trace : List OrchEvent) (ml : List Post)
    (htrace : ∀ g, OrchEvent.ledger_write g ∉ trace) :
    ∀ g, OrchEvent.ledger_write g ∉
      (trace ++ ml.map (fun m => OrchEvent.fetch_content m.link))
        ++ [OrchEvent.compile_attempt] := by
  intro g hg
  simp only [List.mem_append, List.mem_singleton] at hg
  rcases hg with (hg | hg) | hg
  · exact htrace g hg
  · rcases List.mem_map.mp hg with ⟨m, _, hm⟩
    exact OrchEvent.noConfusion hm
  · exact OrchEvent.noConfusion hg

/-- Control-flow facts about the compile-and-record tail: any ledger
write in its trace happens after `compile_done` and only records links of
the ledger or of the compiled posts, and an exceptional exit leaves the
ledger file untouched. -/
theorem continueRun_spec (env : OrchEnv) (trace : List OrchEvent) (ml : List Post)
    (htrace : ∀ g, OrchEvent.ledger_write g ∉ trace) :
    (∀ pre f suf,
      (continueRun env trace ml).trace = pre ++ OrchEvent.ledger_write f :: suf →
      OrchEvent.compile_done ∈ pre ∧
      ∀ l ∈ (EpubTracker.load f).post_links,
        l ∈ (EpubTracker.load env.tracker_file).post_links ∨ l ∈ ml.map Post.link) ∧
    (∀ e, (continueRun env trace ml).result = .error e →
      (continueRun env trace ml).fs = env.tracker_file) := by
  have hnomap : ∀ g, OrchEvent.ledger_write g ∉
      trace ++ ml.map (fun m => OrchEvent.fetch_content m.link) := by
    intro g hg
    rcases List.mem_append.mp hg with hg | hg
    · exact htrace g hg
    · rcases List.mem_map.mp hg with ⟨m, _, hm⟩
      exact OrchEvent.noConfusion hm
  unfold continueRun
  by_cases hpath : (env.mode_update || env.format_epub) = true
  · rw [if_pos hpath]
    by_cases hc : env.compile_ok
    · rw [if_neg (by simp [hc])]
      by_cases hm : env.mode_update
      · rw [if_pos hm]
        constructor
        · intro pre f suf heq
          obtain ⟨hf, hpre, _⟩ := last_write_aux _ _ pre suf f
            (no_write_in_tail trace ml htrace) (by simpa using heq)
          constructor
          · rw [hpre]; simp
          · intro l hl
            rw [hf] at hl
            by_cases hs : env.save_ok
            · simp [EpubTracker.save, hs, EpubTracker.load] at hl
              rcases hl with hl | hl
              · exact Or.inl hl
              · right
                rw [← cleanedPosts_links env ml]
                simpa [cleanedPosts] using hl
            · simp [EpubTracker.save, hs] at hl
              exact Or.inl hl
        · intro e he
          simp [RunOutcome.done] at he
      · rw [if_neg hm]
        constructor
        · intro pre f suf heq
          obtain ⟨hf, hpre, _⟩ := last_write_aux _ _ pre suf f
            (no_write_in_tail trace ml htrace) (by simpa using heq)
          constructor
          · rw [hpre]; simp
          · intro l hl
            rw [hf] at hl
            by_cases hs : env.save_ok
            · simp [EpubTracker.save, hs, EpubTracker.load] at hl
              right
              rw [← cleanedPosts_links env ml]
              simpa [cleanedPosts] using hl
            · simp [EpubTracker.save, hs] at hl
              exact Or.inl hl
        · intro e he
          simp [RunOutcome.done] at he
    · rw [if_pos (by simp [hc])]
      constructor
      · intro pre f suf heq
        exact absurd (write_mem_of_trace_eq heq) (no_write_in_attempt trace ml htrace f)
      · intro e _
        rfl
  · rw [if_neg hpath]
    by_cases hc : env.compile_ok
    · rw [if_neg (by simp [hc])]
      constructor
      · intro pre f suf heq
        exact absurd (write_mem_of_trace_eq heq) (no_write_in_tail trace ml htrace f)
      · intro e he
        simp [RunOutcome.done] at he
    · rw [if_pos (by simp [hc])]
      constructor
      · intro pre f suf heq
        exact absurd (write_mem_of_trace_eq heq) (no_write_in_attempt trace ml htrace f)
      · intro e _
        rfl


/-- Claim C4: an update-mode run (with a validly constructed fetcher)
whose EPUB/ledger pair does not both exist returns the `missing_epub`
outcome, leaves the ledger untouched, and performs nothing beyond the
title/author lookups: no metadata fetch, no content fetch, no
compilation, no ledger write appears in its trace. -/
theorem run_download_missing_base (env : OrchEnv)
    (hmode : env.mode_update = true)
    (hmiss : EpubTracker.exists_check env.epub_present env.tracker_file = false)
    (hinit : ∃ st, SubstackFetcher.init env.url env.cookie = .ok st) :
    run_download env = RunOutcome.done "missing_epub"
        "No existing EPUB found. Please create one first."
        [OrchEvent.fetch_title, OrchEvent.fetch_author] env.tracker_file ∧
    ∀ e ∈ (run_download env).trace,
      e = OrchEvent.fetch_title ∨ e = OrchEvent.fetch_author := by
  obtain ⟨st, hst⟩ := hinit
  have hrun : run_download env = RunOutcome.done "missing_epub"
      "No existing EPUB found. Please create one first."
      [OrchEvent.fetch_title, OrchEvent.fetch_author] env.tracker_file := by
    unfold run_download
    rw [hst]
    simp [hmode, hmiss]
  refine ⟨hrun, ?_⟩
  rw [hrun]
  intro e he
  simp [RunOutcome.done] at he
  exact he

/-- Witness for C4: the concrete missing-pair environment. -/
theorem run_download_missing_base_witness :
    run_download envMissing = RunOutcome.done "missing_epub"
        "No existing EPUB found. Please create one first."
        [OrchEvent.fetch_title, OrchEvent.fetch_author] envMissing.tracker_file ∧
    ∀ e ∈ (run_download envMissing).trace,
      e = OrchEvent.fetch_title ∨ e = OrchEvent.fetch_author :=
  run_download_missing_base envMissing rfl rfl
    ⟨{ url := "https://ex.substack.com",
       api_url := "https://ex.substack.com/api/v1/archive",
       hasCookie := false }, rfl⟩

/-- Claim C5: in every run, a ledger write appears in the trace only
after the compilation event has completed, and the written ledger only
ever contains links already present before the run together with links of
the posts that were just compiled; a run that aborts with an exception
(fetcher construction or compilation failure) leaves the ledger file in
its initial state. -/
theorem run_download_ledger_after_compile (env : OrchEnv) :
    (∀ pre f suf,
      (run_download env).trace = pre ++ OrchEvent.ledger_write f :: suf →
      OrchEvent.compile_done ∈ pre ∧
      ∀ l ∈ (EpubTracker.load f).post_links,
        l ∈ (EpubTracker.load env.tracker_file).post_links ∨
        l ∈ (metadataListOf env).map Post.link) ∧
    (∀ e, (run_download env).result = .error e →
      (run_download env).fs = env.tracker_file) := by
  unfold run_download
  cases hst : SubstackFetcher.init env.url env.cookie with
  | error e0 =>
    constructor
    · intro pre f suf heq
      simp at heq
    · intro e _
      rfl
  | ok st =>
    by_cases hm : env.mode_update = true
    · simp only [hm, if_true]
      by_cases hex : EpubTracker.exists_check env.epub_present env.tracker_file = true
      · simp only [hex, Bool.not_true, Bool.false_eq_true, if_false]
        by_cases hempty : (EpubTracker.get_new_posts env.tracker_file
            (fetch_archive_metadata env.now none env.pages).1).isEmpty = true
        · simp only [hempty, if_true]
          constructor
          · intro pre f suf heq
            simp [RunOutcome.done] at heq
            have := write_mem_of_trace_eq heq
            simp at this
          · intro e he
            simp [RunOutcome.done] at he
        · simp only [hempty, Bool.false_eq_true, if_false]
          have hspec := continueRun_spec env
            ([OrchEvent.fetch_title, OrchEvent.fetch_author] ++ [OrchEvent.fetch_metadata])
            (EpubTracker.get_new_posts env.tracker_file
              (fetch_archive_metadata env.now none env.pages).1)
            (by intro g hg; simp at hg)
          constructor
          · intro pre f suf heq
            obtain ⟨hcd, hlinks⟩ := hspec.1 pre f suf heq
            refine ⟨hcd, ?_⟩
            intro l hl
            rcases hlinks l hl with h | h
            · exact Or.inl h
            · right
              simpa [metadataListOf, hm] using h
          · exact hspec.2
      · simp only [hex]
        constructor
        · intro pre f suf heq
          simp [RunOutcome.done] at heq
          have := write_mem_of_trace_eq heq
          simp at this
        · intro e he
          simp [RunOutcome.done] at he
    · simp only [hm, if_false]
      by_cases hempty : ((fetch_archive_metadata env.now
          (if env.limit = 0 then none else some env.limit) env.pages).1).isEmpty = true
      · simp only [hempty, if_true]
        constructor
        · intro pre f suf heq
          simp [RunOutcome.done] at heq
          have := write_mem_of_trace_eq heq
          simp at this
        · intro e he
          simp [RunOutcome.done] at he
      · simp only [hempty, Bool.false_eq_true, if_false]
        have hspec := continueRun_spec env
          ([OrchEvent.fetch_title, OrchEvent.fetch_author] ++ [OrchEvent.fetch_metadata])
          ((fetch_archive_metadata env.now
            (if env.limit = 0 then none else some env.limit) env.pages).1)
          (by intro g hg; simp at hg)
        constructor
        · intro pre f suf heq
          obtain ⟨hcd, hlinks⟩ := hspec.1 pre f suf heq
          refine ⟨hcd, ?_⟩
          intro l hl
          rcases hlinks l hl with h | h
          · exact Or.inl h
          · right
            simpa [metadataListOf, hm] using h
        · exact hspec.2

/-- Witness for C5: in the concrete successful update run, the single
ledger write follows the completed compilation and records only the
pre-existing link `A` and the newly compiled link `B`. -/
theorem run_download_ledger_after_compile_witness :
    OrchEvent.compile_done ∈ ([OrchEvent.fetch_title, OrchEvent.fetch_author,
      OrchEvent.fetch_metadata, OrchEvent.fetch_content "B",
      OrchEvent.compile_attempt, OrchEvent.compile_done] : List OrchEvent) ∧
    ∀ l ∈ (EpubTracker.load (.stored storedAB)).post_links,
      l ∈ (EpubTracker.load envUpdate.tracker_file).post_links ∨
      l ∈ (metadataListOf envUpdate).map Post.link :=
  (run_download_ledger_after_compile envUpdate).1
    [OrchEvent.fetch_title, OrchEvent.fetch_author, OrchEvent.fetch_metadata,
     OrchEvent.fetch_content "B", OrchEvent.compile_attempt, OrchEvent.compile_done]
    (.stored storedAB) [] (by rfl)

/-! ## Claim C6: sanitizer idempotence -/

/-- Stage 1 distributes over sibling concatenation. -/
theorem removeSelList_append (xs ys : List Node) :
    removeSelList (xs ++ ys) = removeSelList xs ++ removeSelList ys := by
  induction xs with
  | nil => simp [removeSelList]
  | cons n rest ih => simp [removeSelList, ih]

/-- Stage 2 distributes over sibling concatenation. -/
theorem removeSubAnchorList_append (p : String) (xs ys : List Node) :
    removeSubAnchorList p (xs ++ ys)
      = removeSubAnchorList p xs ++ removeSubAnchorList p ys := by
  induction xs with
  | nil => simp [removeSubAnchorList]
  | cons n rest ih => simp [removeSubAnchorList, ih]

/-- Selector-freeness over concatenation. -/
theorem selFreeList_append (xs ys : List Node) :
    selFreeList (xs ++ ys) = (selFreeList xs && selFreeList ys) := by
  induction xs with
  | nil => simp [selFreeList]
  | cons n rest ih => simp [selFreeList, ih, Bool.and_assoc]

/-- Anchor-freeness over concatenation. -/
theorem anchorFreeList_append (xs ys : List Node) :
    anchorFreeList (xs ++ ys) = (anchorFreeList xs && anchorFreeList ys) := by
  induction xs with
  | nil => simp [anchorFreeList]
  | cons n rest ih => simp [anchorFreeList, ih, Bool.and_assoc]

/-- Nesting-freeness over concatenation. -/
theorem noNestedAnchorList_append (xs ys : List Node) :
    noNestedAnchorList (xs ++ ys)
      = (noNestedAnchorList xs && noNestedAnchorList ys) := by
  induction xs with
  | nil => simp [noNestedAnchorList]
  | cons n rest ih => simp [noNestedAnchorList, ih, Bool.and_assoc]

mutual
/-- The output of stage 1 contains no selector-matching element
(matching is intrinsic to tag and class, which stage 1 preserves on kept
nodes). -/
theorem selFree_removeSelNode : ∀ n : Node, selFreeList (removeSelNode n) = true
  | .text s => by simp [removeSelNode, selFreeList, selFreeNode]
  | .elem tag cls ch => by
    by_cases h : matchesRemovalSelector tag cls
    · simp [removeSelNode, h, selFreeList]
    · simp [removeSelNode, h, selFreeList, selFreeNode, selFree_removeSelList ch]

/-- Forest version of `selFree_removeSelNode`. -/
theorem selFree_removeSelList : ∀ ns : List Node, selFreeList (removeSelList ns) = true
  | [] => by simp [removeSelList, selFreeList]
  | n :: rest => by
    simp [removeSelList, selFreeList_append, selFree_removeSelNode n,
      selFree_removeSelList rest]
end

mutual
/-- Stage 1 fixes selector-free nodes. -/
theorem removeSelNode_id : ∀ n : Node, selFreeNode n = true → removeSelNode n = [n]
  | .text s, _ => by simp [removeSelNode]
  | .elem tag cls ch, h => by
    simp only [selFreeNode, Bool.and_eq_true, Bool.not_eq_true'] at h
    simp [removeSelNode, h.1, removeSelList_id ch h.2]

/-- Stage 1 fixes selector-free forests. -/
theorem removeSelList_id : ∀ ns : List Node, selFreeList ns = true → removeSelList ns = ns
  | [], _ => rfl
  | n :: rest, h => by
    simp only [selFreeList, Bool.and_eq_true] at h
    simp [removeSelList, removeSelNode_id n h.1, removeSelList_id rest h.2]
end

mutual
/-- Stage 2 preserves selector-freeness (it only removes nodes and keeps
tags and classes of the survivors). -/
theorem selFree_removeSubAnchorNode : ∀ (p : String) (n : Node),
    selFreeNode n = true → selFreeList (removeSubAnchorNode p n) = true
  | p, .text s, _ => by simp [removeSubAnchorNode, selFreeList, selFreeNode]
  | p, .elem tag cls ch, h => by
    simp only [selFreeNode, Bool.and_eq_true, Bool.not_eq_true'] at h
    by_cases ha : anchorMatches p (.elem tag cls ch) = true
    · simp [removeSubAnchorNode, ha, selFreeList]
    · simp [removeSubAnchorNode, ha, selFreeList, selFreeNode, h.1,
        selFree_removeSubAnchorList tag ch h.2]

/-- Forest version of `selFree_removeSubAnchorNode`. -/
theorem selFree_removeSubAnchorList : ∀ (p : String) (ns : List Node),
    selFreeList ns = true → selFreeList (removeSubAnchorList p ns) = true
  | _, [], _ => by simp [removeSubAnchorList, selFreeList]
  | p, n :: rest, h => by
    simp only [selFreeList, Bool.and_eq_true] at h
    simp [removeSubAnchorList, selFreeList_append,
      selFree_removeSubAnchorNode p n h.1, selFree_removeSubAnchorList p rest h.2]
end

mutual
/-- Stage 2 fixes anchor-free nodes. -/
theorem removeSubAnchorNode_id : ∀ (p : String) (n : Node),
    anchorFreeNode n = true → removeSubAnchorNode p n = [n]
  | p, .text s, _ => by simp [removeSubAnchorNode]
  | p, .elem tag cls ch, h => by
    simp only [anchorFreeNode, Bool.and_eq_true, bne_iff_ne, ne_eq] at h
    have hna : anchorMatches p (.elem tag cls ch) = false := by
      simp [anchorMatches, h.1]
    simp [removeSubAnchorNode, hna, removeSubAnchorList_id tag ch h.2]

/-- Stage 2 fixes anchor-free forests. -/
theorem removeSubAnchorList_id : ∀ (p : String) (ns : List Node),
    anchorFreeList ns = true → removeSubAnchorList p ns = ns
  | _, [], _ => rfl
  | p, n :: rest, h => by
    simp only [anchorFreeList, Bool.and_eq_true] at h
    simp [removeSubAnchorList, removeSubAnchorNode_id p n h.1,
      removeSubAnchorList_id p rest h.2]
end

mutual
/-- Stage 1 preserves anchor-freeness. -/
theorem anchorFree_removeSelNode : ∀ n : Node,
    anchorFreeNode n = true → anchorFreeList (removeSelNode n) = true
  | .text s, _ => by simp [removeSelNode, anchorFreeList, anchorFreeNode]
  | .elem tag cls ch, h => by
    simp only [anchorFreeNode, Bool.and_eq_true, bne_iff_ne, ne_eq] at h
    by_cases hm : matchesRemovalSelector tag cls
    · simp [removeSelNode, hm, anchorFreeList]
    · simp [removeSelNode, hm, anchorFreeList, anchorFreeNode, h.1,
        anchorFree_removeSelList ch h.2]

/-- Forest version of `anchorFree_removeSelNode`. -/
theorem anchorFree_removeSelList : ∀ ns : List Node,
    anchorFreeList ns = true → anchorFreeList (removeSelList ns) = true
  | [], _ => by simp [removeSelList, anchorFreeList]
  | n :: rest, h => by
    simp only [anchorFreeList, Bool.and_eq_true] at h
    simp [removeSelList, anchorFreeList_append, anchorFree_removeSelNode n h.1,
      anchorFree_removeSelList rest h.2]
end

mutual
/-- Stage 1 preserves the absence of nested anchors. -/
theorem noNested_removeSelNode : ∀ n : Node,
    noNestedAnchorNode n = true → noNestedAnchorList (removeSelNode n) = true
  | .text s, _ => by simp [removeSelNode, noNestedAnchorList, noNestedAnchorNode]
  | .elem tag cls ch, h => by
    by_cases hm : matchesRemovalSelector tag cls
    · simp [removeSelNode, hm, noNestedAnchorList]
    · by_cases htag : tag = "a"
      · subst htag
        have hch : anchorFreeList ch = true := by
          simpa [noNestedAnchorNode] using h
        simp [removeSelNode, hm, noNestedAnchorList, noNestedAnchorNode,
          anchorFree_removeSelList ch hch]
      · have hch : noNestedAnchorList ch = true := by
          simpa [noNestedAnchorNode, htag] using h
        simp [removeSelNode, hm, noNestedAnchorList, noNestedAnchorNode, htag,
          noNested_removeSelList ch hch]

/-- Forest version of `noNested_removeSelNode`. -/
theorem noNested_removeSelList : ∀ ns : List Node,
    noNestedAnchorList ns = true → noNestedAnchorList (removeSelList ns) = true
  | [], _ => by simp [removeSelList, noNestedAnchorList]
  | n :: rest, h => by
    simp only [noNestedAnchorList, Bool.and_eq_true] at h
    simp [removeSelList, noNestedAnchorList_append, noNested_removeSelNode n h.1,
      noNested_removeSelList rest h.2]
end

mutual
/-- On nesting-free nodes, a second run of stage 2 changes nothing: a kept
anchor has anchor-free children fixed by the first run, so its `.string`
— and hence its match status — is unchanged. -/
theorem removeSubAnchor_idem_node : ∀ (p : String) (n : Node),
    noNestedAnchorNode n = true →
    removeSubAnchorList p (removeSubAnchorNode p n) = removeSubAnchorNode p n
  | p, .text s, _ => by simp [removeSubAnchorNode, removeSubAnchorList]
  | p, .elem tag cls ch, h => by
    by_cases ha : anchorMatches p (.elem tag cls ch) = true
    · simp [removeSubAnchorNode, ha, removeSubAnchorList]
    · by_cases htag : tag = "a"
      · subst htag
        have hch : anchorFreeList ch = true := by
          simpa [noNestedAnchorNode] using h
        have hfix : removeSubAnchorList "a" ch = ch :=
          removeSubAnchorList_id "a" ch hch
        simp [removeSubAnchorNode, ha, removeSubAnchorList, hfix]
      · have hch : noNestedAnchorList ch = true := by
          simpa [noNestedAnchorNode, htag] using h
        have hna : ∀ ch' : List Node,
            anchorMatches p (Node.elem tag cls ch') = false := by
          intro ch'
          simp [anchorMatches, htag]
        simp [removeSubAnchorNode, ha, removeSubAnchorList, hna,
          removeSubAnchor_idem_list tag ch hch]

/-- Forest version of `removeSubAnchor_idem_node`. -/
theorem removeSubAnchor_idem_list : ∀ (p : String) (ns : List Node),
    noNestedAnchorList ns = true →
    removeSubAnchorList p (removeSubAnchorList p ns) = removeSubAnchorList p ns
  | _, [], _ => rfl
  | p, n :: rest, h => by
    simp only [noNestedAnchorList, Bool.and_eq_true] at h
    simp [removeSubAnchorList, removeSubAnchorList_append,
      removeSubAnchor_idem_node p n h.1, removeSubAnchor_idem_list p rest h.2]
end

/-- Claim C6 counterexample: on a nested-anchor input — which the
`html.parser` tree builder produces verbatim, performing no HTML5
nesting correction — the sanitizer is *not* idempotent.  The first pass
removes the inner `class="button"` subscribe anchor; only then does the
outer anchor acquire a single-string `.string` containing "subscribe",
so a second pass removes the outer anchor as well. -/
theorem parse_content_not_idempotent :
    parse_content (parse_content
      [.elem "div" "" [.elem "a" ""
        [.elem "a" "button" [.text "subscribe"], .text " subscribe now"]]])
    ≠ parse_content
      [.elem "div" "" [.elem "a" ""
        [.elem "a" "button" [.text "subscribe"], .text " subscribe now"]]] := by
  decide

/-- Claim C6 as amended: the sanitizer is idempotent on every input in
which no anchor element contains another anchor element (on nested
anchors a second application can remove an outer anchor whose
single-string text only emerges once the first application removed the
inner one), and empty input yields empty output.  Statelessness/purity is
intrinsic: the transform is a function of the parse tree alone. -/
theorem parse_content_idempotent_unnested :
    (∀ html : List Node, noNestedAnchorList html = true →
      parse_content (parse_content html) = parse_content html) ∧
    parse_content ([] : List Node) = [] := by
  constructor
  · intro html h
    unfold parse_content
    have h1 : selFreeList (removeSelList html) = true := selFree_removeSelList html
    have h2 : selFreeList
        (removeSubAnchorList "[document]" (removeSelList html)) = true :=
      selFree_removeSubAnchorList _ _ h1
    rw [removeSelList_id _ h2]
    exact removeSubAnchor_idem_list _ _ (noNested_removeSelList html h)
  · rfl

/-- Witness for amended C6: a subscription widget next to real content
(no nested anchors) is cleaned idempotently. -/
theorem parse_content_idempotent_unnested_witness :
    parse_content (parse_content
      [.elem "div" "subscription-widget-wrap" [.text "x"],
       .elem "p" "" [.text "real content"],
       .elem "div" "" [.elem "a" "" [.text "Subscribe now"]],
       .elem "button" "" [.text "Share"]])
    = parse_content
      [.elem "div" "subscription-widget-wrap" [.text "x"],
       .elem "p" "" [.text "real content"],
       .elem "div" "" [.elem "a" "" [.text "Subscribe now"]],
       .elem "button" "" [.text "Share"]] :=
  parse_content_idempotent_unnested.1
    [.elem "div" "subscription-widget-wrap" [.text "x"],
     .elem "p" "" [.text "real content"],
     .elem "div" "" [.elem "a" "" [.text "Subscribe now"]],
     .elem "button" "" [.text "Share"]] (by decide)

end Substack
